import Mathlib

/-!
Verification of the second-order dynamics smoothing filter.

The filter keeps a previous input `xp`, state variables `y` (value) and
`yd` (rate), and compiled constants `w`, `z`, `d`, `k1`, `k2`, `k3`.
The source works on `f32`; we model the arithmetic over the real numbers.
A fallible operation returns `Except Unit α`: `Except.error ()` models a
panicking precondition check (a failed `assert!`), `Except.ok` a normal
return.  The scalar instantiation `T = ℝ` of the generic state type is
used throughout, matching the source's own test.
-/

/-- State of the filter: previous input, the two state variables, and the
compiled constants, exactly the fields of the source structure. -/
structure SecondOrderDynamics where
  xp : ℝ
  y : ℝ
  yd : ℝ
  w : ℝ
  z : ℝ
  d : ℝ
  k1 : ℝ
  k2 : ℝ
  k3 : ℝ

/-- Constructor body: `w = TAU·f`, `d = w·sqrt(|z·z − 1|)`,
`k1 = z/(PI·f)`, `k2 = 1/(w·w)`, `k3 = r·z/w`, state initialized with
`xp = y = x0` and `yd = 0`. -/
noncomputable def SecondOrderDynamics.mkFilter (f z r x0 : ℝ) : SecondOrderDynamics :=
  let w := 2 * Real.pi * f
  let d := w * Real.sqrt |z * z - 1|
  { xp := x0
    y := x0
    yd := 0
    w := w
    z := z
    d := d
    k1 := z / (Real.pi * f)
    k2 := 1 / (w * w)
    k3 := r * z / w }

/-- Public constructor.  The source performs no precondition check in
`new` (floating-point division by zero does not panic), so the result is
always `Except.ok`. -/
noncomputable def SecondOrderDynamics.new (f z r x0 : ℝ) :
    Except Unit SecondOrderDynamics :=
  Except.ok (SecondOrderDynamics.mkFilter f z r x0)

/-- Per-step stabilized coefficients `(k1, k2)`: the clamped direct
scheme when `w·t < z`, pole matching otherwise. -/
noncomputable def stabilize (s : SecondOrderDynamics) (t : ℝ) : ℝ × ℝ :=
  if s.w * t < s.z then
    (s.k1, max (max s.k2 (t * t / 2 + t * s.k1 / 2)) (t * s.k1))
  else
    let t1 := Real.exp (-s.z * s.w * t)
    let alpha := 2 * t1 * (if s.z ≤ 1 then Real.cos (t * s.d) else Real.cosh (t * s.d))
    let beta := t1 * t1
    let t2 := t / (1 + beta - alpha)
    ((1 - beta) * t2, t * t2)

/-- Integration step of `update` after the rate has been determined:
position first (`y + yd·t`, with the previous rate), then rate (using the
new position), with the stabilized coefficients; `xp` receives the given
new previous-input value.  Returns the new state and the returned value. -/
noncomputable def integrate (s : SecondOrderDynamics) (t x xd xp : ℝ) :
    SecondOrderDynamics × ℝ :=
  let k := stabilize s t
  let y := s.y + s.yd * t
  let yd := s.yd + (x + xd * s.k3 - y - s.yd * k.1) * t / k.2
  ({ s with xp := xp, y := y, yd := yd }, y)

/-- Rate used by an `update` call: the explicit one when supplied,
otherwise the finite-difference estimate `(x − xp)/t`. -/
noncomputable def usedRate (s : SecondOrderDynamics) (t x : ℝ)
    (xdOpt : Option ℝ) : ℝ :=
  match xdOpt with
  | some xd => xd
  | none => (x - s.xp) / t

/-- One step.  With an explicit rate the previous input is kept; without
one the source asserts `t ≠ 0` (modeled as `Except.error ()`), uses the
estimate `(x − xp)/t` and stores `x` as the new previous input. -/
noncomputable def SecondOrderDynamics.update (s : SecondOrderDynamics)
    (t x : ℝ) (xdOpt : Option ℝ) : Except Unit (SecondOrderDynamics × ℝ) :=
  match xdOpt with
  | some xd => Except.ok (integrate s t x xd s.xp)
  | none =>
    if t = 0 then Except.error ()
    else Except.ok (integrate s t x ((x - s.xp) / t) x)

/-! ## Claim theorems -/

/-- C1: the stabilized coefficients are chosen by the regime test
`w·dt < z`: the clamped direct scheme (`k1' = k1`,
`k2' = max(k2, dt²/2 + dt·k1/2, dt·k1)`) when the test holds, otherwise
the pole-matching formulas `t1 = exp(−z·w·dt)`,
`alpha = 2·t1·cos(d·dt)` if `z ≤ 1` else `2·t1·cosh(d·dt)`,
`beta = t1²`, `t2 = dt/(1 + beta − alpha)`, `k1' = (1 − beta)·t2`,
`k2' = dt·t2`. -/
theorem stabilize_regime_selection (s : SecondOrderDynamics) (t : ℝ) :
    stabilize s t =
      if s.w * t < s.z then
        (s.k1, max (max s.k2 (t ^ 2 / 2 + t * s.k1 / 2)) (t * s.k1))
      else
        ((1 - Real.exp (-(s.z * s.w * t)) ^ 2) *
            (t / (1 + Real.exp (-(s.z * s.w * t)) ^ 2 -
              2 * Real.exp (-(s.z * s.w * t)) *
                (if s.z ≤ 1 then Real.cos (s.d * t) else Real.cosh (s.d * t)))),
          t * (t / (1 + Real.exp (-(s.z * s.w * t)) ^ 2 -
              2 * Real.exp (-(s.z * s.w * t)) *
                (if s.z ≤ 1 then Real.cos (s.d * t) else Real.cosh (s.d * t))))) := by
  unfold stabilize
  split_ifs with h1 h2
  · rw [pow_two t]
  · rw [show -s.z * s.w * t = -(s.z * s.w * t) by ring, mul_comm t s.d]
    ring_nf
  · rw [show -s.z * s.w * t = -(s.z * s.w * t) by ring, mul_comm t s.d]
    ring_nf

/-- C3: construction computes `w = 2π·f`, `d = w·sqrt(|z² − 1|)`,
`k1 = z/(π·f)`, `k2 = 1/w²`, `k3 = r·z/w`, and initializes
`value = previous_target = x0`, `rate = 0`. -/
theorem new_coefficients (f z r x0 : ℝ) (_hf : 0 < f) :
    SecondOrderDynamics.new f z r x0 = Except.ok
      { xp := x0
        y := x0
        yd := 0
        w := 2 * Real.pi * f
        z := z
        d := 2 * Real.pi * f * Real.sqrt |z ^ 2 - 1|
        k1 := z / (Real.pi * f)
        k2 := 1 / (2 * Real.pi * f) ^ 2
        k3 := r * z / (2 * Real.pi * f) } := by
  rw [pow_two z, pow_two (2 * Real.pi * f)]
  rfl

/-- C3 witness at `f = 1`, `z = 1`, `r = 1`, `x0 = 0`. -/
theorem new_coefficients_witness :
    (0:ℝ) < 1 ∧
      SecondOrderDynamics.new 1 1 1 0 = Except.ok
        { xp := 0
          y := 0
          yd := 0
          w := 2 * Real.pi * 1
          z := 1
          d := 2 * Real.pi * 1 * Real.sqrt |(1:ℝ) ^ 2 - 1|
          k1 := 1 / (Real.pi * 1)
          k2 := 1 / (2 * Real.pi * 1) ^ 2
          k3 := 1 * 1 / (2 * Real.pi * 1) } :=
  ⟨by norm_num, new_coefficients 1 1 1 0 (by norm_num)⟩

/-- C4 counterexample: at frequency `0 ≤ 0` the constructor does not
fail: it returns an instance (the source has no precondition check, and
float division by zero does not panic). -/
theorem new_no_failfast_cex :
    (0:ℝ) ≤ 0 ∧ SecondOrderDynamics.new 0 1 1 0 ≠ Except.error () := by
  refine ⟨le_refl 0, ?_⟩
  intro h
  exact Except.noConfusion h

/-- C4 amended: construction never fails; in particular for every
frequency `f ≤ 0` it still returns a filter instance. -/
theorem new_total_on_nonpositive_frequency (f z r x0 : ℝ) (_hf : f ≤ 0) :
    ∃ s, SecondOrderDynamics.new f z r x0 = Except.ok s :=
  ⟨SecondOrderDynamics.mkFilter f z r x0, rfl⟩

/-- C4 amended witness at `f = 0`. -/
theorem new_total_on_nonpositive_frequency_witness :
    (0:ℝ) ≤ 0 ∧ ∃ s, SecondOrderDynamics.new 0 1 1 0 = Except.ok s :=
  ⟨le_refl 0, new_total_on_nonpositive_frequency 0 1 1 0 (le_refl 0)⟩

/-- C8: at damping ratio `z = 1` exactly, `d = 0`, and the `cos` branch
and the `cosh` branch of the pole-matching scheme compute the same
`alpha`: `2·t1·cos(d·dt) = 2·t1·cosh(d·dt)`. -/
theorem critical_damping_branches_agree (f r x0 t t1 : ℝ) :
    (SecondOrderDynamics.mkFilter f 1 r x0).d = 0 ∧
      2 * t1 * Real.cos (t * (SecondOrderDynamics.mkFilter f 1 r x0).d) =
        2 * t1 * Real.cosh (t * (SecondOrderDynamics.mkFilter f 1 r x0).d) := by
  have hd : (SecondOrderDynamics.mkFilter f 1 r x0).d = 0 := by
    show 2 * Real.pi * f * Real.sqrt |(1:ℝ) * 1 - 1| = 0
    norm_num
  refine ⟨hd, ?_⟩
  rw [hd, mul_zero, Real.cos_zero, Real.cosh_zero]

/-- C10: with `dt = 0` and an explicit rate, `update` does not fail and
leaves the state unchanged, returning the prior value. -/
theorem update_zero_dt_explicit_rate (s : SecondOrderDynamics) (x v : ℝ)
    (hz : 0 < s.z) :
    SecondOrderDynamics.update s 0 x (some v) = Except.ok (s, s.y) := by
  cases s with
  | mk xp y yd w z d k1 k2 k3 =>
    unfold SecondOrderDynamics.update integrate
    norm_num

/-- C10 witness: a concrete zero-`dt` call with an explicit rate. -/
theorem update_zero_dt_explicit_rate_witness :
    SecondOrderDynamics.update (SecondOrderDynamics.mkFilter 1 1 1 0) 0 5 (some 2)
      = Except.ok (SecondOrderDynamics.mkFilter 1 1 1 0,
          (SecondOrderDynamics.mkFilter 1 1 1 0).y) :=
  update_zero_dt_explicit_rate (SecondOrderDynamics.mkFilter 1 1 1 0) 5 2
    (by show (0:ℝ) < 1; norm_num)

/-- C2: every successful `update` advances the state in semi-implicit
order: `value' = value + rate·dt` with the previous rate, then
`rate' = rate + (target + used_rate·k3 − value' − rate·k1')·dt/k2'` with
the already-updated value, and the post-update value is returned. -/
theorem update_semi_implicit_step (s : SecondOrderDynamics) (t x : ℝ)
    (xdOpt : Option ℝ) (s' : SecondOrderDynamics) (r : ℝ)
    (h : SecondOrderDynamics.update s t x xdOpt = Except.ok (s', r)) :
    s'.y = s.y + s.yd * t ∧
      s'.yd = s.yd + (x + usedRate s t x xdOpt * s.k3 - s'.y -
        s.yd * (stabilize s t).1) * t / (stabilize s t).2 ∧
      r = s'.y := by
  cases xdOpt with
  | some xd =>
    simp only [SecondOrderDynamics.update, Except.ok.injEq] at h
    have h1 : s' = (integrate s t x xd s.xp).1 := by rw [h]
    have h2 : r = (integrate s t x xd s.xp).2 := by rw [h]
    subst h1; subst h2
    exact ⟨rfl, rfl, rfl⟩
  | none =>
    simp only [SecondOrderDynamics.update] at h
    by_cases ht : t = 0
    · rw [if_pos ht] at h
      exact Except.noConfusion h
    · rw [if_neg ht] at h
      simp only [Except.ok.injEq] at h
      have h1 : s' = (integrate s t x ((x - s.xp) / t) x).1 := by rw [h]
      have h2 : r = (integrate s t x ((x - s.xp) / t) x).2 := by rw [h]
      subst h1; subst h2
      exact ⟨rfl, rfl, rfl⟩

/-- C2 witness: a concrete `update` call with an explicit rate. -/
theorem update_semi_implicit_step_witness :
    ∃ s' r, SecondOrderDynamics.update (SecondOrderDynamics.mkFilter 1 1 1 0)
        1 1 (some 0) = Except.ok (s', r) ∧
      s'.y = (SecondOrderDynamics.mkFilter 1 1 1 0).y +
        (SecondOrderDynamics.mkFilter 1 1 1 0).yd * 1 ∧
      r = s'.y := by
  refine ⟨_, _, rfl, ?_, ?_⟩
  · exact (update_semi_implicit_step (SecondOrderDynamics.mkFilter 1 1 1 0)
      1 1 (some 0) _ _ rfl).1
  · exact (update_semi_implicit_step (SecondOrderDynamics.mkFilter 1 1 1 0)
      1 1 (some 0) _ _ rfl).2.2

/-- C5: `update` fails exactly when no explicit rate is supplied and
`dt = 0`; with no explicit rate and `dt ≠ 0` it integrates with the
estimate `(target − previous_target)/dt` and stores the target as the
new previous target. -/
theorem update_domain_errors (s : SecondOrderDynamics) (t x : ℝ)
    (xdOpt : Option ℝ) :
    (SecondOrderDynamics.update s t x xdOpt = Except.error () ↔
        xdOpt = none ∧ t = 0) ∧
      (t ≠ 0 → SecondOrderDynamics.update s t x none
          = Except.ok (integrate s t x ((x - s.xp) / t) x)) ∧
      (∀ s' r, SecondOrderDynamics.update s t x none = Except.ok (s', r) →
        s'.xp = x) := by
  refine ⟨?_, ?_, ?_⟩
  · cases xdOpt with
    | some xd =>
      simp only [SecondOrderDynamics.update]
      constructor
      · intro h; exact Except.noConfusion h
      · rintro ⟨h, -⟩; exact Option.noConfusion h
    | none =>
      simp only [SecondOrderDynamics.update]
      by_cases ht : t = 0
      · rw [if_pos ht]
        simp [ht]
      · rw [if_neg ht]
        constructor
        · intro h; exact Except.noConfusion h
        · rintro ⟨-, h⟩; exact absurd h ht
  · intro ht
    simp only [SecondOrderDynamics.update]
    rw [if_neg ht]
  · intro s' r h
    simp only [SecondOrderDynamics.update] at h
    by_cases ht : t = 0
    · rw [if_pos ht] at h
      exact Except.noConfusion h
    · rw [if_neg ht] at h
      simp only [Except.ok.injEq] at h
      have h1 : s' = (integrate s t x ((x - s.xp) / t) x).1 := by rw [h]
      subst h1
      rfl

/-- C5 witness: a concrete estimator-path call with `dt = 1 ≠ 0`. -/
theorem update_domain_errors_witness :
    (1:ℝ) ≠ 0 ∧
      SecondOrderDynamics.update (SecondOrderDynamics.mkFilter 1 1 1 0) 1 2 none
        = Except.ok (integrate (SecondOrderDynamics.mkFilter 1 1 1 0) 1 2
            ((2 - (SecondOrderDynamics.mkFilter 1 1 1 0).xp) / 1) 2) :=
  ⟨by norm_num,
    (update_domain_errors (SecondOrderDynamics.mkFilter 1 1 1 0) 1 2 none).2.1
      (by norm_num)⟩

/-- C6: a successful `update` with an explicit rate leaves
`previous_target` unchanged, and every successful `update` leaves the
compiled constants `w`, `z`, `d`, `k1`, `k2`, `k3` unchanged. -/
theorem update_frame_conditions (s : SecondOrderDynamics) (t x : ℝ)
    (xdOpt : Option ℝ) (s' : SecondOrderDynamics) (r : ℝ)
    (h : SecondOrderDynamics.update s t x xdOpt = Except.ok (s', r)) :
    (xdOpt.isSome = true → s'.xp = s.xp) ∧ s'.w = s.w ∧ s'.z = s.z ∧
      s'.d = s.d ∧ s'.k1 = s.k1 ∧ s'.k2 = s.k2 ∧ s'.k3 = s.k3 := by
  cases xdOpt with
  | some xd =>
    simp only [SecondOrderDynamics.update, Except.ok.injEq] at h
    have h1 : s' = (integrate s t x xd s.xp).1 := by rw [h]
    subst h1
    exact ⟨fun _ => rfl, rfl, rfl, rfl, rfl, rfl, rfl⟩
  | none =>
    simp only [SecondOrderDynamics.update] at h
    by_cases ht : t = 0
    · rw [if_pos ht] at h
      exact Except.noConfusion h
    · rw [if_neg ht] at h
      simp only [Except.ok.injEq] at h
      have h1 : s' = (integrate s t x ((x - s.xp) / t) x).1 := by rw [h]
      subst h1
      exact ⟨fun hs => Bool.noConfusion hs, rfl, rfl, rfl, rfl, rfl, rfl⟩

/-- C6 witness: a concrete explicit-rate call keeps `xp` and `w`. -/
theorem update_frame_conditions_witness :
    ∃ s' r, SecondOrderDynamics.update (SecondOrderDynamics.mkFilter 1 1 1 0)
        1 1 (some 0) = Except.ok (s', r) ∧
      s'.xp = (SecondOrderDynamics.mkFilter 1 1 1 0).xp ∧
      s'.w = (SecondOrderDynamics.mkFilter 1 1 1 0).w := by
  refine ⟨_, _, rfl, ?_, ?_⟩
  · exact (update_frame_conditions (SecondOrderDynamics.mkFilter 1 1 1 0)
      1 1 (some 0) _ _ rfl).1 rfl
  · exact (update_frame_conditions (SecondOrderDynamics.mkFilter 1 1 1 0)
      1 1 (some 0) _ _ rfl).2.1

/-- C7 counterexample: a filter with frequency `1 > 0` and damping ratio
`0`, stepped with `dt = 1 > 0`, reaches the pole-matching branch with
`t1 = exp 0 = 1` and `cos(2π) = 1`, so `1 + beta − alpha = 0` and the
stabilized `k2'` is `0`, not strictly positive. -/
theorem stabilized_k2_zero_cex :
    (0:ℝ) < 1 ∧ (0:ℝ) < 1 ∧
      (stabilize (SecondOrderDynamics.mkFilter 1 0 0 0) 1).2 = 0 := by
  refine ⟨by norm_num, by norm_num, ?_⟩
  have hz : (SecondOrderDynamics.mkFilter 1 0 0 0).z = 0 := rfl
  have hw : (SecondOrderDynamics.mkFilter 1 0 0 0).w = 2 * Real.pi * 1 := rfl
  have hd : (SecondOrderDynamics.mkFilter 1 0 0 0).d = 2 * Real.pi := by
    show 2 * Real.pi * 1 * Real.sqrt |(0:ℝ) * 0 - 1| = 2 * Real.pi
    norm_num
  unfold stabilize
  rw [hz, hw, hd]
  rw [if_neg (not_lt.mpr (by positivity : (0:ℝ) ≤ 2 * Real.pi * 1 * 1))]
  rw [if_pos (by norm_num : (0:ℝ) ≤ 1)]
  norm_num [Real.cos_two_pi]

/-- C7 amended: for every filter constructed with frequency `f > 0` and
damping ratio `z > 0`, and every step with `dt > 0`, the stabilized
coefficient `k2'` is strictly positive in both schemes. -/
theorem stabilized_k2_positive (f z r x0 t : ℝ) (hf : 0 < f) (hz : 0 < z)
    (ht : 0 < t) :
    0 < (stabilize (SecondOrderDynamics.mkFilter f z r x0) t).2 := by
  have hw : (SecondOrderDynamics.mkFilter f z r x0).w = 2 * Real.pi * f := rfl
  have hzz : (SecondOrderDynamics.mkFilter f z r x0).z = z := rfl
  have hdd : (SecondOrderDynamics.mkFilter f z r x0).d
      = 2 * Real.pi * f * Real.sqrt |z * z - 1| := rfl
  have hk2 : (SecondOrderDynamics.mkFilter f z r x0).k2
      = 1 / (2 * Real.pi * f * (2 * Real.pi * f)) := rfl
  have hw0 : 0 < 2 * Real.pi * f := by positivity
  unfold stabilize
  rw [hzz, hw, hdd, hk2]
  split_ifs with hregime hzle
  · -- clamped direct scheme: k2' is a max over the base k2 > 0
    dsimp only
    have h0 : 0 < 1 / (2 * Real.pi * f * (2 * Real.pi * f)) := by positivity
    exact lt_of_lt_of_le h0 (le_trans (le_max_left _ _) (le_max_left _ _))
  · -- pole matching, oscillatory branch (z ≤ 1)
    dsimp only
    set t1 := Real.exp (-z * (2 * Real.pi * f) * t) with ht1
    have ht1pos : 0 < t1 := Real.exp_pos _
    have ht1lt : t1 < 1 := by
      have harg : -z * (2 * Real.pi * f) * t < 0 := by nlinarith
      have := Real.exp_lt_exp.mpr harg
      rwa [Real.exp_zero] at this
    have hcos : Real.cos (t * (2 * Real.pi * f * Real.sqrt |z * z - 1|)) ≤ 1 :=
      Real.cos_le_one _
    have hden : 0 < 1 + t1 * t1 -
        2 * t1 * Real.cos (t * (2 * Real.pi * f * Real.sqrt |z * z - 1|)) := by
      nlinarith [mul_pos (sub_pos.mpr ht1lt) (sub_pos.mpr ht1lt),
        mul_le_mul_of_nonneg_left hcos (by positivity : (0:ℝ) ≤ 2 * t1)]
    exact mul_pos ht (div_pos ht hden)
  · -- pole matching, non-oscillatory branch (z > 1)
    dsimp only
    have hz1 : 1 < z := not_le.mp hzle
    have habs : |z * z - 1| = z * z - 1 := abs_of_nonneg (by nlinarith)
    have hs0 : 0 ≤ Real.sqrt (z * z - 1) := Real.sqrt_nonneg _
    have hsz : Real.sqrt (z * z - 1) < z := by
      refine (Real.sqrt_lt' (by linarith)).mpr ?_
      nlinarith
    set t1 := Real.exp (-z * (2 * Real.pi * f) * t) with ht1
    set dd := 2 * Real.pi * f * Real.sqrt |z * z - 1| with hdd2
    have hdpos : 0 ≤ dd := by rw [hdd2]; positivity
    have hdlt : dd < z * (2 * Real.pi * f) := by
      rw [hdd2, habs]
      nlinarith [mul_pos hw0 (sub_pos.mpr hsz)]
    have hA : t1 * Real.exp (t * dd) = Real.exp (t * dd - z * (2 * Real.pi * f) * t) := by
      rw [ht1, ← Real.exp_add]
      congr 1
      ring
    have hB : t1 * Real.exp (-(t * dd)) =
        Real.exp (-(t * dd) - z * (2 * Real.pi * f) * t) := by
      rw [ht1, ← Real.exp_add]
      congr 1
      ring
    have hA1 : Real.exp (t * dd - z * (2 * Real.pi * f) * t) < 1 := by
      have harg : t * dd - z * (2 * Real.pi * f) * t < 0 := by
        nlinarith [mul_pos ht (sub_pos.mpr hdlt)]
      have := Real.exp_lt_exp.mpr harg
      rwa [Real.exp_zero] at this
    have hB1 : Real.exp (-(t * dd) - z * (2 * Real.pi * f) * t) < 1 := by
      have harg : -(t * dd) - z * (2 * Real.pi * f) * t < 0 := by
        nlinarith [mul_nonneg ht.le hdpos, mul_pos (mul_pos hz hw0) ht]
      have := Real.exp_lt_exp.mpr harg
      rwa [Real.exp_zero] at this
    have hcosh : 2 * t1 * Real.cosh (t * dd)
        = Real.exp (t * dd - z * (2 * Real.pi * f) * t)
          + Real.exp (-(t * dd) - z * (2 * Real.pi * f) * t) := by
      rw [Real.cosh_eq, ← hA, ← hB]
      ring
    have hprod : t1 * t1
        = Real.exp (t * dd - z * (2 * Real.pi * f) * t)
          * Real.exp (-(t * dd) - z * (2 * Real.pi * f) * t) := by
      rw [ht1, ← Real.exp_add, ← Real.exp_add]
      congr 1
      ring
    have hden : 0 < 1 + t1 * t1 - 2 * t1 * Real.cosh (t * dd) := by
      rw [hcosh, hprod]
      nlinarith [mul_pos (sub_pos.mpr hA1) (sub_pos.mpr hB1)]
    exact mul_pos ht (div_pos ht hden)

/-- C7 amended witness at `f = 1`, `z = 1`, `dt = 1`. -/
theorem stabilized_k2_positive_witness :
    (0:ℝ) < 1 ∧ 0 < (stabilize (SecondOrderDynamics.mkFilter 1 1 0 0) 1).2 :=
  ⟨by norm_num,
    stabilized_k2_positive 1 1 0 0 1 (by norm_num) (by norm_num) (by norm_num)⟩

/-! ## Concrete scenario B: 100 steps of `update 0.01 1 (some 0.01)` on a
filter constructed with `(2, 1, 2, 0)`. -/

/-- One scenario-B step: the state after `update 0.01 1 (some 0.01)`
(which always succeeds, the fallback pair being irrelevant). -/
noncomputable def stepB (s : SecondOrderDynamics) : SecondOrderDynamics :=
  ((SecondOrderDynamics.update s 0.01 1 (some 0.01)).toOption.getD (s, s.y)).1

/-- Scenario-B trajectory: the filter state after `n` update calls. -/
noncomputable def scenarioB : ℕ → SecondOrderDynamics
  | 0 => SecondOrderDynamics.mkFilter 2 1 2 0
  | n + 1 => stepB (scenarioB n)

/-- Compiled constants along the scenario-B trajectory. -/
lemma scenarioB_fields (n : ℕ) :
    (scenarioB n).w = 2 * Real.pi * 2 ∧ (scenarioB n).z = 1 ∧
      (scenarioB n).k1 = 1 / (Real.pi * 2) ∧
      (scenarioB n).k2 = 1 / (2 * Real.pi * 2 * (2 * Real.pi * 2)) ∧
      (scenarioB n).k3 = 2 * 1 / (2 * Real.pi * 2) := by
  induction n with
  | zero => exact ⟨rfl, rfl, rfl, rfl, rfl⟩
  | succ n ih => exact ih

/-- In scenario B every step takes the clamped branch and the clamp
resolves to the base `k2`. -/
lemma scenarioB_stabilize (n : ℕ) :
    stabilize (scenarioB n) 0.01 = ((scenarioB n).k1, (scenarioB n).k2) := by
  obtain ⟨hw, hz, hk1, hk2, hk3⟩ := scenarioB_fields n
  have hπ0 : (0:ℝ) < Real.pi := Real.pi_pos
  have hπ4 : Real.pi < 3.15 := Real.pi_lt_315
  unfold stabilize
  rw [hw, hz, hk1, hk2]
  rw [if_pos (by nlinarith : 2 * Real.pi * 2 * 0.01 < (1:ℝ))]
  have h16 : (0:ℝ) < 2 * Real.pi * 2 * (2 * Real.pi * 2) := by positivity
  have hA : (0.01:ℝ) * 0.01 / 2 + 0.01 * (1 / (Real.pi * 2)) / 2
      ≤ 1 / (2 * Real.pi * 2 * (2 * Real.pi * 2)) := by
    rw [le_div_iff h16]
    have hexp : ((0.01:ℝ) * 0.01 / 2 + 0.01 * (1 / (Real.pi * 2)) / 2) *
        (2 * Real.pi * 2 * (2 * Real.pi * 2))
        = 0.0008 * (Real.pi * Real.pi) + 0.04 * Real.pi := by
      field_simp
      ring
    rw [hexp]
    nlinarith [mul_lt_mul_of_pos_left hπ4 hπ0]
  have hB : (0.01:ℝ) * (1 / (Real.pi * 2))
      ≤ 1 / (2 * Real.pi * 2 * (2 * Real.pi * 2)) := by
    rw [le_div_iff h16]
    have hexp : (0.01:ℝ) * (1 / (Real.pi * 2)) *
        (2 * Real.pi * 2 * (2 * Real.pi * 2)) = 0.08 * Real.pi := by
      field_simp
      ring
    rw [hexp]
    nlinarith
  rw [max_eq_left hA, max_eq_left hB]

/-- Scenario-B step in affine form: with `C = 1 + 1/(200π)`,
`y' = y + yd·0.01` and `yd' = (1 − 2π/25)·yd + (4π²/25)·(C − y')`. -/
lemma scenarioB_step (n : ℕ) :
    (scenarioB (n + 1)).y = (scenarioB n).y + (scenarioB n).yd * 0.01 ∧
      (scenarioB (n + 1)).yd
        = (1 - 2 * Real.pi / 25) * (scenarioB n).yd
          + 4 * Real.pi ^ 2 / 25 *
            (1 + 1 / (200 * Real.pi) - (scenarioB (n + 1)).y) := by
  refine ⟨rfl, ?_⟩
  have hyd : (scenarioB (n + 1)).yd
      = (scenarioB n).yd + (1 + 0.01 * (scenarioB n).k3 - (scenarioB (n + 1)).y -
          (scenarioB n).yd * (stabilize (scenarioB n) 0.01).1) * 0.01 /
          (stabilize (scenarioB n) 0.01).2 := rfl
  obtain ⟨hw, hz, hk1, hk2, hk3⟩ := scenarioB_fields n
  rw [hyd, scenarioB_stabilize n, hk1, hk2, hk3]
  have hπ0 : Real.pi ≠ 0 := Real.pi_ne_zero
  field_simp
  ring

set_option maxHeartbeats 2000000 in
/-- One-step contraction of the scenario-B error recursion in the
approximate left-eigenvector coordinates `u1 = (447/25)·e + v`,
`u2 = (1104/125)·e + v`: both coordinates shrink by at least the factor
`114/125` per step. -/
lemma contractB (e v : ℝ) :
    |447/25 * (e + v * 0.01) +
        ((1 - 2 * Real.pi / 25) * v - 4 * Real.pi ^ 2 / 25 * (e + v * 0.01))|
      ≤ 114/125 * max |447/25 * e + v| |1104/125 * e + v| ∧
    |1104/125 * (e + v * 0.01) +
        ((1 - 2 * Real.pi / 25) * v - 4 * Real.pi ^ 2 / 25 * (e + v * 0.01))|
      ≤ 114/125 * max |447/25 * e + v| |1104/125 * e + v| := by
  have hπ1 : (3.141592:ℝ) < Real.pi := Real.pi_gt_3141592
  have hπ2 : Real.pi < 3.141593 := Real.pi_lt_3141593
  have hsq1 : (3.141592:ℝ) ^ 2 < Real.pi ^ 2 := by nlinarith
  have hsq2 : Real.pi ^ 2 < (3.141593:ℝ) ^ 2 := by nlinarith
  set u1 := (447:ℝ)/25 * e + v with hu1
  set u2 := (1104:ℝ)/125 * e + v with hu2
  set c11 := (125:ℝ)/1131 * (447/25 - 4 * Real.pi ^ 2 / 25 -
      1104/125 * (447/2500 + 1 - 2 * Real.pi / 25 - 4 * Real.pi ^ 2 / 2500)) with hc11
  set c12 := (125:ℝ)/1131 * (-(447/25 - 4 * Real.pi ^ 2 / 25) +
      447/25 * (447/2500 + 1 - 2 * Real.pi / 25 - 4 * Real.pi ^ 2 / 2500)) with hc12
  set c21 := (125:ℝ)/1131 * (1104/125 - 4 * Real.pi ^ 2 / 25 -
      1104/125 * (1104/12500 + 1 - 2 * Real.pi / 25 - 4 * Real.pi ^ 2 / 2500)) with hc21
  set c22 := (125:ℝ)/1131 * (-(1104/125 - 4 * Real.pi ^ 2 / 25) +
      447/25 * (1104/12500 + 1 - 2 * Real.pi / 25 - 4 * Real.pi ^ 2 / 2500)) with hc22
  clear_value u1 u2 c11 c12 c21 c22
  have hMu1 : |u1| ≤ max |u1| |u2| := le_max_left _ _
  have hMu2 : |u2| ≤ max |u1| |u2| := le_max_right _ _
  have hM0 : 0 ≤ max |u1| |u2| := le_trans (abs_nonneg _) hMu1
  constructor
  · have key : (447:ℝ)/25 * (e + v * 0.01) +
        ((1 - 2 * Real.pi / 25) * v - 4 * Real.pi ^ 2 / 25 * (e + v * 0.01))
        = c11 * u1 + c12 * u2 := by
      rw [hc11, hc12, hu1, hu2]; ring
    have b1 : |c11| ≤ 911682/1000000 := by
      rw [hc11, abs_le]; constructor <;> linarith
    have b2 : |c12| ≤ 1/1000000 := by
      rw [hc12, abs_le]; constructor <;> linarith
    rw [key]
    have habs : |c11 * u1 + c12 * u2| ≤ |c11| * |u1| + |c12| * |u2| := by
      refine le_trans (abs_add _ _) ?_
      rw [abs_mul, abs_mul]
    refine le_trans habs ?_
    have h1 : |c11| * |u1| ≤ 911682/1000000 * max |u1| |u2| :=
      mul_le_mul b1 hMu1 (abs_nonneg _) (by norm_num)
    have h2 : |c12| * |u2| ≤ 1/1000000 * max |u1| |u2| :=
      mul_le_mul b2 hMu2 (abs_nonneg _) (by norm_num)
    linarith
  · have key : (1104:ℝ)/125 * (e + v * 0.01) +
        ((1 - 2 * Real.pi / 25) * v - 4 * Real.pi ^ 2 / 25 * (e + v * 0.01))
        = c21 * u1 + c22 * u2 := by
      rw [hc21, hc22, hu1, hu2]; ring
    have b1 : |c21| ≤ 2/1000000 := by
      rw [hc21, abs_le]; constructor <;> linarith
    have b2 : |c22| ≤ 8212/10000 := by
      rw [hc22, abs_le]; constructor <;> linarith
    rw [key]
    have habs : |c21 * u1 + c22 * u2| ≤ |c21| * |u1| + |c22| * |u2| := by
      refine le_trans (abs_add _ _) ?_
      rw [abs_mul, abs_mul]
    refine le_trans habs ?_
    have h1 : |c21| * |u1| ≤ 2/1000000 * max |u1| |u2| :=
      mul_le_mul b1 hMu1 (abs_nonneg _) (by norm_num)
    have h2 : |c22| * |u2| ≤ 8212/10000 * max |u1| |u2| :=
      mul_le_mul b2 hMu2 (abs_nonneg _) (by norm_num)
    linarith

/-- Uniform geometric bound on the scenario-B error coordinates. -/
lemma scenarioB_u_bound (n : ℕ) :
    |447/25 * ((scenarioB n).y - (1 + 1 / (200 * Real.pi))) + (scenarioB n).yd|
        ≤ 18 * (114/125) ^ n ∧
      |1104/125 * ((scenarioB n).y - (1 + 1 / (200 * Real.pi))) + (scenarioB n).yd|
        ≤ 18 * (114/125) ^ n := by
  induction n with
  | zero =>
    have h0y : (scenarioB 0).y = 0 := rfl
    have h0v : (scenarioB 0).yd = 0 := rfl
    rw [h0y, h0v, pow_zero]
    have hπ3 : (3:ℝ) < Real.pi := Real.pi_gt_three
    have hC2 : 1 / (200 * Real.pi) ≤ 1/600 :=
      one_div_le_one_div_of_le (by norm_num) (by nlinarith)
    have hC0 : (0:ℝ) < 1 + 1 / (200 * Real.pi) := by positivity
    constructor
    · have habs : |447/25 * ((0:ℝ) - (1 + 1 / (200 * Real.pi))) + 0|
          = 447/25 * (1 + 1 / (200 * Real.pi)) := by
        rw [add_zero, abs_of_nonpos (by nlinarith)]
        ring
      rw [habs]
      nlinarith
    · have habs : |1104/125 * ((0:ℝ) - (1 + 1 / (200 * Real.pi))) + 0|
          = 1104/125 * (1 + 1 / (200 * Real.pi)) := by
        rw [add_zero, abs_of_nonpos (by nlinarith)]
        ring
      rw [habs]
      nlinarith
  | succ n ih =>
    obtain ⟨ih1, ih2⟩ := ih
    obtain ⟨hstep1, hstep2⟩ := scenarioB_step n
    have hcon := contractB ((scenarioB n).y - (1 + 1 / (200 * Real.pi)))
      (scenarioB n).yd
    have hmax : max
        |447/25 * ((scenarioB n).y - (1 + 1 / (200 * Real.pi))) + (scenarioB n).yd|
        |1104/125 * ((scenarioB n).y - (1 + 1 / (200 * Real.pi))) + (scenarioB n).yd|
        ≤ 18 * (114/125) ^ n := max_le ih1 ih2
    have he : (scenarioB (n+1)).y - (1 + 1 / (200 * Real.pi))
        = ((scenarioB n).y - (1 + 1 / (200 * Real.pi))) + (scenarioB n).yd * 0.01 := by
      rw [hstep1]; ring
    have hv : (scenarioB (n+1)).yd
        = (1 - 2 * Real.pi / 25) * (scenarioB n).yd
          - 4 * Real.pi ^ 2 / 25 *
            (((scenarioB n).y - (1 + 1 / (200 * Real.pi))) + (scenarioB n).yd * 0.01) := by
      rw [hstep2, hstep1]; ring
    have hgeom : 114/125 * (18 * ((114:ℝ)/125) ^ n) = 18 * (114/125) ^ (n+1) := by
      rw [pow_succ]; ring
    constructor
    · rw [he, hv]
      refine le_trans hcon.1 ?_
      rw [← hgeom]
      exact mul_le_mul_of_nonneg_left hmax (by norm_num)
    · rw [he, hv]
      refine le_trans hcon.2 ?_
      rw [← hgeom]
      exact mul_le_mul_of_nonneg_left hmax (by norm_num)

/-- C9: constructing with `(frequency = 2, damping_ratio = 1,
initial_response = 2, initial_value = 0)` and calling
`update(0.01, 1, some 0.01)` one hundred times in sequence yields a
final returned value `≥ 1`: `scenarioB` is exactly that sequence of
`update` calls, and the hundredth returned value is its state value. -/
theorem scenarioB_returns_ge_one :
    (∀ n, SecondOrderDynamics.update (scenarioB n) 0.01 1 (some 0.01)
        = Except.ok (scenarioB (n + 1), (scenarioB (n + 1)).y)) ∧
      (1:ℝ) ≤ (scenarioB 100).y := by
  constructor
  · intro n
    rfl
  · have h100 := scenarioB_u_bound 100
    obtain ⟨hb1, hb2⟩ := h100
    have hρ : ((114:ℝ)/125) ^ 100 ≤ 1/10000 := by norm_num
    have hρ0 : (0:ℝ) ≤ ((114:ℝ)/125) ^ 100 := by positivity
    have hid : (scenarioB 100).y - (1 + 1 / (200 * Real.pi))
        = ((447/25 * ((scenarioB 100).y - (1 + 1 / (200 * Real.pi))) + (scenarioB 100).yd)
            - (1104/125 * ((scenarioB 100).y - (1 + 1 / (200 * Real.pi))) + (scenarioB 100).yd))
          * (125/1131) := by
      ring
    have htri : |(447/25 * ((scenarioB 100).y - (1 + 1 / (200 * Real.pi))) + (scenarioB 100).yd)
          - (1104/125 * ((scenarioB 100).y - (1 + 1 / (200 * Real.pi))) + (scenarioB 100).yd)|
        ≤ 18 * (114/125) ^ 100 + 18 * (114/125) ^ 100 := by
      refine le_trans (abs_sub _ _) ?_
      exact add_le_add hb1 hb2
    have habs : |(scenarioB 100).y - (1 + 1 / (200 * Real.pi))|
        ≤ (18 * (114/125) ^ 100 + 18 * (114/125) ^ 100) * (125/1131) := by
      rw [hid, abs_mul]
      rw [show |(125:ℝ)/1131| = 125/1131 from abs_of_pos (by norm_num)]
      exact mul_le_mul_of_nonneg_right htri (by norm_num)
    have hlow : -((18 * ((114:ℝ)/125) ^ 100 + 18 * (114/125) ^ 100) * (125/1131))
        ≤ (scenarioB 100).y - (1 + 1 / (200 * Real.pi)) :=
      le_trans (neg_le_neg habs) (neg_abs_le _)
    have hπ2 : Real.pi < 3.141593 := Real.pi_lt_3141593
    have hCb : (1:ℝ)/629 ≤ 1 / (200 * Real.pi) :=
      one_div_le_one_div_of_le (by positivity) (by nlinarith)
    nlinarith [hρ, hρ0, hlow, hCb]
